import Mathlib

/-!
# rh-api: the per-delivery reconciliation handler of `main.go`

A shallow embedding of the goroutine that `main` starts for every delivery
(`main.go`, lines 126-193), of the start-up override of `RETRY_DELAY`
(`main.go`, lines 23-44), and of the retry policy `decide` of the
specification, followed by the theorems relating them.

Effects of the handler (calls to `netbox.CreateOrUpdateVM`, to `ch.Publish`
and to the logger) are recorded, in program order, in an explicit trace.
The results of the two fallible calls come from a `World` of oracles.
-/

namespace RhApi

/-! ## Go integer types -/

/-- The sized integer types of Go. `int` and `uint` are one of the 32 or 64 bit
kinds, depending on the platform. -/
inductive IntKind
  | int8 | int16 | int32 | int64
  | uint8 | uint16 | uint32 | uint64
  deriving DecidableEq, Repr

namespace IntKind

/-- Width in bits. -/
def bits : IntKind → Nat
  | int8 | uint8 => 8
  | int16 | uint16 => 16
  | int32 | uint32 => 32
  | int64 | uint64 => 64

/-- Signedness. -/
def signed : IntKind → Bool
  | int8 | int16 | int32 | int64 => true
  | uint8 | uint16 | uint32 | uint64 => false

/-- Number of values of the type, `2 ^ bits`. -/
def modulus : IntKind → Int
  | int8 | uint8 => 256
  | int16 | uint16 => 65536
  | int32 | uint32 => 4294967296
  | int64 | uint64 => 18446744073709551616

/-- Smallest value of the type. -/
def minVal : IntKind → Int
  | int8 => -128
  | int16 => -32768
  | int32 => -2147483648
  | int64 => -9223372036854775808
  | uint8 | uint16 | uint32 | uint64 => 0

/-- Largest value of the type. -/
def maxVal : IntKind → Int
  | int8 => 127
  | int16 => 32767
  | int32 => 2147483647
  | int64 => 9223372036854775807
  | uint8 => 255
  | uint16 => 65535
  | uint32 => 4294967295
  | uint64 => 18446744073709551615

/-- Membership of a mathematical integer in the type. -/
def inRange (T : IntKind) (x : Int) : Bool :=
  decide (T.minVal ≤ x) && decide (x ≤ T.maxVal)

/-- Result of a Go arithmetic operation whose exact value is `x`: the value
is reduced modulo `2 ^ bits` into the range of the type (two's complement
wrap-around for the signed kinds). -/
def wrap (T : IntKind) (x : Int) : Int :=
  (x - T.minVal) % T.modulus + T.minVal

end IntKind

/-- Go's `int` on the 64 bit platforms (amd64, arm64). `RETRY_DELAY` has this
type and `strconv.Atoi` returns it. -/
def goInt : IntKind := IntKind.int64

/-! ## Data model -/

/-- Modelled from the spec: the inventory fields of `model.Message` (the
package `model` lies outside `main.go`). The spec calls them a set carried
through unchanged; here they are named string attributes. -/
abbrev Fields := List (String × String)

/-- Modelled from the spec: `model.Message`, the VM event. The source uses the
fields `Hostname`, `Timestamp` and `FailCount`; `FailCount` is of an integer
type of Go that the handler is parameterised by, and always holds a value of
that type. `Timestamp` is a `time.Time`, held as seconds since the Unix epoch,
and is part of the encoding of the event. -/
structure Message where
  Hostname : String
  Inventory : Fields
  Timestamp : Int
  FailCount : Int
  deriving DecidableEq, Repr

/-- The zero value of `time.Time`, the first second of year 1. -/
def zeroTime : Int := -62135596800

/-- Whether the year of a `time.Time` lies in `0..9999`, the range outside of
which `Time.MarshalJSON` fails and which the RFC 3339 text form of a timestamp
cannot leave (years are read in UTC). -/
def timeInRange (t : Int) : Bool :=
  decide (-62167219200 ≤ t) && decide (t < 253402300800)

/-- One member of a JSON object, as `encoding/json` treats it when it fills a
struct: it is missing, or present with the value `null`, or present with a
value of the type of the field. -/
inductive JsonField (α : Type)
  | missing
  | null
  | value (v : α)
  deriving DecidableEq, Repr

/-- The value a struct field has after decoding: the value of the member when
it has one, what the field held before otherwise. `encoding/json` leaves a
field alone both when the member is missing and when it is `null`. -/
def JsonField.getD {α : Type} : JsonField α → α → α
  | JsonField.value v, _ => v
  | JsonField.missing, d => d
  | JsonField.null, d => d

/-- Whether the member occurs in the object, with a value or with `null`. -/
def JsonField.present {α : Type} : JsonField α → Bool
  | JsonField.missing => false
  | JsonField.null => true
  | JsonField.value _ => true

/-- The value of a member, when it has one. -/
def JsonField.toOption {α : Type} : JsonField α → Option α
  | JsonField.value v => some v
  | JsonField.missing => none
  | JsonField.null => none

/-- A structured record as it travels on the wire: a JSON object with the
members the event has fields for. -/
structure Record where
  hostname : JsonField String
  inventory : JsonField Fields
  timestamp : JsonField Int
  fail_count : JsonField Int
  deriving DecidableEq, Repr

/-- Payload bytes of a delivery or of a publication, up to what
`encoding/json` sees in them: bytes that do not decode into the event (the
empty body, `not-json`, a string where a number is expected, ...), the JSON
value `null`, or a JSON object. -/
inductive Payload
  | invalid (raw : String)
  | null
  | record (r : Record)
  deriving DecidableEq, Repr

/-- Outcome of `json.Unmarshal(body, &msg)`. The members that have a value
overwrite the fields of `msg`; a member that is missing or `null` leaves its
field as `msg` had it, and so does the body `null` as a whole. A number that
does not fit the type `T` of `FailCount`, a timestamp outside the years
`0..9999`, and bytes that are not such an object are decoding errors. -/
def unmarshal (T : IntKind) (body : Payload) (msg : Message) : Except String Message :=
  match body with
  | Payload.invalid _ => Except.error "invalid character looking for beginning of value"
  | Payload.null => Except.ok msg
  | Payload.record r =>
    let badTime : Bool :=
      match r.timestamp with
      | JsonField.value t => !(timeInRange t)
      | _ => false
    let badCount : Bool :=
      match r.fail_count with
      | JsonField.value v => !(T.inRange v)
      | _ => false
    if badTime then Except.error "parsing time: year out of range"
    else if badCount then
      Except.error "cannot unmarshal number into Go struct field Message.fail_count"
    else
      Except.ok
        { Hostname := r.hostname.getD msg.Hostname
          Inventory := r.inventory.getD msg.Inventory
          Timestamp := r.timestamp.getD msg.Timestamp
          FailCount := r.fail_count.getD msg.FailCount }

/-- The JSON object of an event: every member present, with the value of its
field. This is the lossless encoding the specification speaks of, and the
bytes `json.Marshal` returns when it succeeds. -/
def encode (msg : Message) : Payload :=
  Payload.record
    { hostname := JsonField.value msg.Hostname
      inventory := JsonField.value msg.Inventory
      timestamp := JsonField.value msg.Timestamp
      fail_count := JsonField.value msg.FailCount }

/-- Outcome of `json.Marshal(msg)`: the encoding of the event, or the error of
`Time.MarshalJSON` when the year of the timestamp is outside `0..9999`. -/
def marshal (msg : Message) : Except String Payload :=
  if timeInRange msg.Timestamp then Except.ok (encode msg)
  else Except.error "Time.MarshalJSON: year outside of range [0,9999]"

/-- The bytes left in `newMsgJson` by `newMsgJson, _ := json.Marshal(newMsg)`
(lines 146 and 176): the error is discarded, and with it the bytes are `nil`,
the empty body. -/
def marshalDiscardingError (msg : Message) : Payload :=
  match marshal msg with
  | Except.ok bytes => bytes
  | Except.error _ => Payload.invalid ""

/-- The fields of `amqp.Publishing` the handler sets. `Headers` is the
`amqp.Table`, holding the Go `int` the handler puts in it; it is empty when
the source leaves it out. -/
structure Publishing where
  ContentType : String
  Body : Payload
  Headers : List (String × Int)
  deriving DecidableEq, Repr

/-- The publication as the broker receives it: the AMQP library writes a Go
`int` of a table as a signed 32 bit field. -/
def onWire (p : Publishing) : Publishing :=
  { p with Headers := p.Headers.map (fun kv => (kv.1, IntKind.int32.wrap kv.2)) }

/-- The fields of `amqp.Delivery` the handler reads. -/
structure Delivery where
  Body : Payload
  Timestamp : Int
  deriving DecidableEq, Repr

/-- Levels of the logger in `util`. -/
inductive Level
  | info | success | warn | err
  deriving DecidableEq, Repr

/-- One observable effect of the handler. A call to
`netbox.CreateOrUpdateVM` is recorded with its argument and the error it
returned (`none` is Go's `nil`). -/
inductive Effect
  | log (level : Level) (format : String)
  | reconcile (msg : Message) (result : Option String)
  | publish (exchange key : String) (mandatory immediate : Bool) (msg : Publishing)
  deriving DecidableEq, Repr

/-- The values `main` has fixed before the consume loop starts. -/
structure Config where
  incomingQueue : String
  inQName : String
  outQName : String
  RETRY_DELAY : Int
  deriving DecidableEq, Repr

/-- Results of the fallible calls of the handler: `none` is Go's `nil` error. -/
structure World where
  CreateOrUpdateVM : Message → Option String
  Publish : String → String → Publishing → Option String

/-- Local variables of the handler when it returns, and its trace. `newMsg`
is `none` when the handler returns before declaring it. -/
structure Frame where
  msg : Message
  newMsg : Option Message
  effects : List Effect
  deriving DecidableEq, Repr

/-! ## Start-up: `RETRY_DELAY` -/

/-- Initial value of the package variable `RETRY_DELAY`. -/
def RETRY_DELAY : Int := 5

/-- Value of a string of decimal digits. -/
def digitsValue (ds : List Char) : Nat :=
  ds.foldl (fun acc c => 10 * acc + (c.toNat - 48)) 0

/-- Outcome of `strconv.Atoi`: an optional sign, then one or more decimal
digits, denoting a value of `int`; anything else is an error (`none`). -/
def atoi (s : String) : Option Int :=
  let cs := s.toList
  let neg : Bool := cs.head? == some '-'
  let ds : List Char := if cs.head? == some '-' || cs.head? == some '+' then cs.tail else cs
  if ds.isEmpty || !(ds.all Char.isDigit) then none
  else
    let v : Int := if neg then -(digitsValue ds : Int) else (digitsValue ds : Int)
    if goInt.inRange v then some v else none

/-- Value of `RETRY_DELAY` after lines 40-44 of `main.go`; `lookup` is the
result of `os.LookupEnv("RABBITMQ_RETRY_DELAY")`. -/
def loadRetryDelay (lookup : Option String) : Int :=
  match lookup with
  | some value =>
    match atoi value with
    | some i => i
    | none => RETRY_DELAY
  | none => RETRY_DELAY

/-- The values the handler reads, as lines 37-64 of `main.go` leave them:
`incomingQueue` comes from the environment, `inQName` and
`outQName` are the `Name` fields of the two declared queues, and `lookup` is
the result of `os.LookupEnv("RABBITMQ_RETRY_DELAY")`. -/
def mainConfig (incomingQueue inQName outQName : String) (lookup : Option String) : Config :=
  { incomingQueue := incomingQueue, inQName := inQName, outQName := outQName
    RETRY_DELAY := loadRetryDelay lookup }

/-! ## The per-delivery handler -/

/-- The value of `msg` at line 127: the literal
`model.Message{Timestamp: d.Timestamp, FailCount: 20}`, every other field at
its zero value. -/
def initialMessage (d : Delivery) : Message :=
  { Hostname := "", Inventory := [], Timestamp := d.Timestamp, FailCount := 20 }

/-- Lines 127-128: the literal, then `json.Unmarshal(d.Body, &msg)`. -/
def decode (T : IntKind) (d : Delivery) : Except String Message :=
  unmarshal T d.Body (initialMessage d)

/-- The goroutine of lines 126-193 of `main.go`, run on the delivery `d`. `T` is
the type of `FailCount`. -/
def handleDelivery (T : IntKind) (cfg : Config) (w : World) (d : Delivery) : Frame :=
  match decode T d with
  | Except.error _ =>
    { msg := initialMessage d, newMsg := none
      effects := [Effect.log Level.warn "Error unmarshalling message : %w"] }
  | Except.ok msg =>
    match w.CreateOrUpdateVM msg with
    | some err =>
      let newMsg : Message := { msg with FailCount := T.wrap (msg.FailCount - 1) }
      if newMsg.FailCount ≤ 0 then
        { msg := msg, newMsg := some newMsg
          effects := [Effect.reconcile msg (some err),
                      Effect.log Level.warn "error creating or updating VM : %w"] }
      else
        let newMsgJson := marshalDiscardingError newMsg
        let headers : List (String × Int) := [("x-delay", goInt.wrap (cfg.RETRY_DELAY * 1000))]
        let pub : Publishing :=
          { ContentType := "application/json", Body := newMsgJson, Headers := headers }
        let chErr := w.Publish cfg.incomingQueue cfg.inQName pub
        { msg := msg, newMsg := some newMsg
          effects := [Effect.reconcile msg (some err),
                      Effect.log Level.warn "error creating or updating VM : %w",
                      Effect.publish cfg.incomingQueue cfg.inQName false false pub,
                      Effect.log Level.warn
                        (if chErr.isSome then "Error re-publishing message: %s"
                         else "Re-sent message to RabbitMQ®️: %s")] }
    | none =>
      let newMsg : Message := msg
      let newMsgJson := marshalDiscardingError newMsg
      let pub : Publishing :=
        { ContentType := "application/json", Body := newMsgJson, Headers := [] }
      let chErr := w.Publish "" cfg.outQName pub
      { msg := msg, newMsg := some newMsg
        effects := [Effect.reconcile msg none,
                    Effect.log Level.success "VM %s is up to date",
                    Effect.publish "" cfg.outQName false false pub,
                    if chErr.isSome then Effect.log Level.warn "Error publishing success message: %s"
                    else Effect.log Level.success "sent success message to RabbitMQ®️: %s"] }

/-! ## Reading a trace -/

/-- The argument of a call to `netbox.CreateOrUpdateVM`, if the effect is one. -/
def reconcileOf : Effect → Option Message
  | Effect.reconcile m _ => some m
  | _ => none

/-- The publication attempted by a call to `ch.Publish`, with its exchange and
routing key, if the effect is one. -/
def publishOf : Effect → Option (String × String × Publishing)
  | Effect.publish exchange key _ _ p => some (exchange, key, p)
  | _ => none

/-- Whether the effect is a reconcile call that returned an error. -/
def isFailedReconcile : Effect → Bool
  | Effect.reconcile _ (some _) => true
  | _ => false

/-- Whether the effect is a reconcile call that returned no error. -/
def isGoodReconcile : Effect → Bool
  | Effect.reconcile _ none => true
  | _ => false

/-- The calls to `netbox.CreateOrUpdateVM` of a trace, in order. -/
def reconciles (es : List Effect) : List Message :=
  es.filterMap reconcileOf

/-- The publications attempted by a trace, in order. -/
def publications (es : List Effect) : List (String × String × Publishing) :=
  es.filterMap publishOf

/-- The redeliveries attempted by the trace of one delivery: what it publishes
when its reconcile call failed, whatever the exchange, the routing key, the
headers and the body. -/
def redeliveries (es : List Effect) : List (String × String × Publishing) :=
  if es.any isFailedReconcile then publications es else []

/-- The success notifications attempted by the trace of one delivery: what it
publishes when its reconcile call succeeded. -/
def notifications (es : List Effect) : List (String × String × Publishing) :=
  if es.any isGoodReconcile then publications es else []

/-- The retry budget written in a publication body. -/
def budgetOf (p : String × String × Publishing) : Option Int :=
  match p.2.2.Body with
  | Payload.record r => r.fail_count.toOption
  | _ => none

/-! ## The retry policy of the specification -/

namespace Spec

/-- Outcome of `reconcile`, as the retry policy sees it. -/
inductive Outcome
  | ok | error
  deriving DecidableEq, Repr

/-- The three actions of the retry policy. -/
inductive Action
  | emit_success
  | drop
  | redeliver (fail_count : Int) (delay : Int)
  deriving DecidableEq, Repr

/-- The function `decide(outcome, fail_count)` of section 4.2 of the
specification, over the mathematical integers, in the specification's words:
`ok` gives `emit_success`; an error with `fail_count - 1 ≤ 0` gives `drop`; an
error with `fail_count - 1 > 0` gives `redeliver(fail_count - 1, RETRY_DELAY)`. -/
def decide (retryDelay : Int) (outcome : Outcome) (fail_count : Int) : Action :=
  match outcome with
  | Outcome.ok => Action.emit_success
  | Outcome.error =>
    if fail_count - 1 ≤ 0 then Action.drop
    else Action.redeliver (fail_count - 1) retryDelay

end Spec

/-- The outcome of the reconcile call on `msg`, as the retry policy sees it. -/
def outcomeOf (w : World) (msg : Message) : Spec.Outcome :=
  match w.CreateOrUpdateVM msg with
  | none => Spec.Outcome.ok
  | some _ => Spec.Outcome.error

/-- The publications that carrying out an action of the retry policy on the
consumed event `msg` consists of: the success notification on the default
exchange, nothing, or the redelivery of `msg` with the new budget on the
delayed exchange, delayed by `delay` seconds. -/
def perform (cfg : Config) (msg : Message) : Spec.Action → List (String × String × Publishing)
  | Spec.Action.emit_success =>
    [("", cfg.outQName, { ContentType := "application/json", Body := encode msg, Headers := [] })]
  | Spec.Action.drop => []
  | Spec.Action.redeliver budget delay =>
    [(cfg.incomingQueue, cfg.inQName,
      { ContentType := "application/json"
        Body := encode { msg with FailCount := budget }
        Headers := [("x-delay", delay * 1000)] })]

/-! ## Feeding redeliveries back -/

/-- How the life of one originating message ends. -/
inductive Terminal
  | notified | dropped | malformed
  deriving DecidableEq, Repr

/-- The traces of a whole chain of deliveries, one per delivery and in order,
and how the chain ended; `final` is `none` when the chain was cut short by the
fuel. -/
structure Run where
  traces : List (List Effect)
  final : Option Terminal
  deriving DecidableEq, Repr

/-- The reconcile calls of a chain, in order. -/
def Run.reconciles (r : Run) : List Message :=
  (r.traces.map RhApi.reconciles).flatten

/-- The redeliveries of a chain, in order. -/
def Run.redeliveries (r : Run) : List (String × String × Publishing) :=
  (r.traces.map RhApi.redeliveries).flatten

/-- The success notifications of a chain, in order. -/
def Run.notifications (r : Run) : List (String × String × Publishing) :=
  (r.traces.map RhApi.notifications).flatten

/-- The delivery the broker makes of a publication routed to the incoming
queue. The handler sets no timestamp on what it publishes, so the delivery
carries the zero `time.Time`. -/
def deliver (p : Publishing) : Delivery :=
  { Body := p.Body, Timestamp := zeroTime }

/-- Terminal state reached by a delivery that attempted no redelivery. -/
def classify (es : List Effect) : Terminal :=
  if (reconciles es).isEmpty then Terminal.malformed
  else if (notifications es).isEmpty then Terminal.dropped
  else Terminal.notified

/-- The oracles of the `i`-th delivery of a chain: reconcile returns
`outcomes i`, and the broker accepts every publication. -/
def chainWorld (outcomes : Nat → Option String) (i : Nat) : World :=
  { CreateOrUpdateVM := fun _ => outcomes i, Publish := fun _ _ _ => none }

/-- The handler run on a delivery and then on each redelivery it publishes, the
broker accepting every publication. `outcomes i` is the result of the
reconcile call of the `i`-th delivery of the chain, and `fuel` bounds the
number of deliveries. -/
def redeliveryChain (T : IntKind) (cfg : Config) (outcomes : Nat → Option String) :
    Nat → Nat → Delivery → Run
  | 0, _, _ => { traces := [], final := none }
  | fuel + 1, i, d =>
    let es := (handleDelivery T cfg (chainWorld outcomes i) d).effects
    match redeliveries es with
    | p :: _ =>
      let rest := redeliveryChain T cfg outcomes fuel (i + 1) (deliver p.2.2)
      { traces := es :: rest.traces, final := rest.final }
    | [] => { traces := [es], final := some (classify es) }

/-! ## Facts about the integer types -/

namespace IntKind

theorem modulus_eq_two_pow (T : IntKind) : T.modulus = 2 ^ T.bits := by
  cases T <;> simp [modulus, bits]

theorem minVal_eq (T : IntKind) :
    T.minVal = if T.signed then -(2 ^ (T.bits - 1)) else 0 := by
  cases T <;> simp [minVal, bits, signed]

theorem maxVal_eq (T : IntKind) : T.maxVal = T.minVal + T.modulus - 1 := by
  cases T <;> simp [minVal, maxVal, modulus]

theorem minVal_nonpos (T : IntKind) : T.minVal ≤ 0 := by
  cases T <;> simp [minVal]

theorem twenty_le_maxVal (T : IntKind) : 20 ≤ T.maxVal := by
  cases T <;> simp [maxVal]

theorem inRange_iff (T : IntKind) (x : Int) :
    T.inRange x = true ↔ T.minVal ≤ x ∧ x ≤ T.maxVal := by
  simp [inRange]

theorem inRange_twenty (T : IntKind) : T.inRange 20 = true := by
  rw [inRange_iff]
  exact ⟨le_trans (minVal_nonpos T) (by decide), twenty_le_maxVal T⟩

theorem wrap_of_inRange (T : IntKind) (x : Int) (h : T.inRange x = true) : T.wrap x = x := by
  rw [inRange_iff] at h
  obtain ⟨h1, h2⟩ := h
  cases T <;> simp only [wrap, minVal, maxVal, modulus] at * <;> omega

theorem inRange_wrap (T : IntKind) (x : Int) : T.inRange (T.wrap x) = true := by
  rw [inRange_iff]
  cases T <;> simp only [wrap, minVal, maxVal, modulus] <;> omega

theorem wrap_pred (T : IntKind) (n : Int) (h1 : T.minVal < n) (h2 : n ≤ T.maxVal) :
    T.wrap (n - 1) = n - 1 := by
  apply wrap_of_inRange
  rw [inRange_iff]
  omega

theorem wrap_pred_minVal (T : IntKind) : T.wrap (T.minVal - 1) = T.maxVal := by
  cases T <;> simp [wrap, minVal, maxVal, modulus]

theorem maxVal_pos (T : IntKind) : 0 < T.maxVal :=
  lt_of_lt_of_le (by decide) (twenty_le_maxVal T)

end IntKind

theorem IntKind.inRange_minVal (T : IntKind) : T.inRange T.minVal = true := by
  rw [IntKind.inRange_iff]
  exact ⟨le_refl _, le_trans (IntKind.minVal_nonpos T) (le_of_lt (IntKind.maxVal_pos T))⟩

/-! ## Decoding and encoding -/

theorem decode_invalid (T : IntKind) (raw : String) (ts : Int) :
    decode T { Body := Payload.invalid raw, Timestamp := ts }
      = Except.error "invalid character looking for beginning of value" := rfl

theorem decode_null (T : IntKind) (ts : Int) :
    decode T { Body := Payload.null, Timestamp := ts }
      = Except.ok { Hostname := "", Inventory := [], Timestamp := ts, FailCount := 20 } := rfl

/-- A payload that decodes is the value `null` or an object, and the decoded
event has the fields of the object that have a value, the timestamp of the
delivery and the budget 20 for the others. -/
theorem decode_ok_cases (T : IntKind) (d : Delivery) (msg : Message)
    (h : decode T d = Except.ok msg) :
    (d.Body = Payload.null ∧ msg = initialMessage d)
    ∨ ∃ r, d.Body = Payload.record r
        ∧ msg = { Hostname := r.hostname.getD "", Inventory := r.inventory.getD []
                  Timestamp := r.timestamp.getD d.Timestamp
                  FailCount := r.fail_count.getD 20 }
        ∧ (∀ v, r.fail_count = JsonField.value v → T.inRange v = true)
        ∧ (∀ t, r.timestamp = JsonField.value t → timeInRange t = true) := by
  cases hb : d.Body with
  | invalid raw => simp [decode, unmarshal, hb] at h
  | null =>
    left
    simp only [decode, unmarshal, hb] at h
    injection h with h
    exact ⟨rfl, h.symm⟩
  | record r =>
    right
    refine ⟨r, rfl, ?_⟩
    simp only [decode, unmarshal, hb, initialMessage] at h
    split at h
    · cases h
    · split at h
      · cases h
      · rename_i h1 h2
        injection h with h
        refine ⟨h.symm, ?_, ?_⟩
        · intro v hv
          simpa [hv] using h2
        · intro t ht
          simpa [ht] using h1

theorem decode_ok_inRange (T : IntKind) (d : Delivery) (msg : Message)
    (h : decode T d = Except.ok msg) : T.inRange msg.FailCount = true := by
  rcases decode_ok_cases T d msg h with ⟨_, hm⟩ | ⟨r, _, hm, hv, _⟩
  · rw [hm]
    exact IntKind.inRange_twenty T
  · rw [hm]
    cases hf : r.fail_count with
    | missing => exact IntKind.inRange_twenty T
    | null => exact IntKind.inRange_twenty T
    | value v => exact hv v hf

/-- Decoding an object whose budget, if it has one, fits the type and whose
timestamp, if it has one, is in range. -/
theorem decode_record (T : IntKind) (r : Record) (ts : Int)
    (hv : ∀ v, r.fail_count = JsonField.value v → T.inRange v = true)
    (ht : ∀ t, r.timestamp = JsonField.value t → timeInRange t = true) :
    decode T { Body := Payload.record r, Timestamp := ts }
      = Except.ok
          { Hostname := r.hostname.getD "", Inventory := r.inventory.getD []
            Timestamp := r.timestamp.getD ts, FailCount := r.fail_count.getD 20 } := by
  have h1 : (match r.timestamp with
      | JsonField.value t => !(timeInRange t)
      | _ => false) = false := by
    cases hf : r.timestamp with
    | missing => rfl
    | null => rfl
    | value t => simp [ht t hf]
  have h2 : (match r.fail_count with
      | JsonField.value v => !(T.inRange v)
      | _ => false) = false := by
    cases hf : r.fail_count with
    | missing => rfl
    | null => rfl
    | value v => simp [hv v hf]
  simp only [decode, unmarshal, initialMessage, h1, h2]
  rfl

/-- Decoding the encoding of an event gives the event back, whatever the
timestamp of the delivery. -/
theorem decode_encode (T : IntKind) (m : Message) (ts : Int)
    (h : T.inRange m.FailCount = true) (ht : timeInRange m.Timestamp = true) :
    decode T { Body := encode m, Timestamp := ts } = Except.ok m := by
  simp [decode, unmarshal, encode, h, ht, JsonField.getD]

theorem marshalDiscardingError_of_inRange (m : Message) (ht : timeInRange m.Timestamp = true) :
    marshalDiscardingError m = encode m := by
  simp [marshalDiscardingError, marshal, ht]

theorem marshalDiscardingError_of_not_inRange (m : Message)
    (ht : timeInRange m.Timestamp = false) :
    marshalDiscardingError m = Payload.invalid "" := by
  simp [marshalDiscardingError, marshal, ht]

/-! ## The four ways through the handler -/

theorem handleDelivery_malformed (T : IntKind) (cfg : Config) (w : World) (d : Delivery)
    (e : String) (h : decode T d = Except.error e) :
    handleDelivery T cfg w d =
      { msg := initialMessage d, newMsg := none
        effects := [Effect.log Level.warn "Error unmarshalling message : %w"] } := by
  simp [handleDelivery, h]

theorem handleDelivery_success (T : IntKind) (cfg : Config) (w : World) (d : Delivery)
    (msg : Message) (h : decode T d = Except.ok msg) (hw : w.CreateOrUpdateVM msg = none) :
    handleDelivery T cfg w d =
      { msg := msg, newMsg := some msg
        effects :=
          [Effect.reconcile msg none,
           Effect.log Level.success "VM %s is up to date",
           Effect.publish "" cfg.outQName false false
             { ContentType := "application/json", Body := marshalDiscardingError msg
               Headers := [] },
           if (w.Publish "" cfg.outQName
                { ContentType := "application/json", Body := marshalDiscardingError msg
                  Headers := [] }).isSome
           then Effect.log Level.warn "Error publishing success message: %s"
           else Effect.log Level.success "sent success message to RabbitMQ®️: %s"] } := by
  simp [handleDelivery, h, hw]

theorem handleDelivery_drop (T : IntKind) (cfg : Config) (w : World) (d : Delivery)
    (msg : Message) (e : String) (h : decode T d = Except.ok msg)
    (hw : w.CreateOrUpdateVM msg = some e) (hle : T.wrap (msg.FailCount - 1) ≤ 0) :
    handleDelivery T cfg w d =
      { msg := msg, newMsg := some { msg with FailCount := T.wrap (msg.FailCount - 1) }
        effects := [Effect.reconcile msg (some e),
                    Effect.log Level.warn "error creating or updating VM : %w"] } := by
  simp [handleDelivery, h, hw, hle]

theorem handleDelivery_redeliver (T : IntKind) (cfg : Config) (w : World) (d : Delivery)
    (msg : Message) (e : String) (h : decode T d = Except.ok msg)
    (hw : w.CreateOrUpdateVM msg = some e) (hgt : 0 < T.wrap (msg.FailCount - 1)) :
    handleDelivery T cfg w d =
      { msg := msg, newMsg := some { msg with FailCount := T.wrap (msg.FailCount - 1) }
        effects :=
          [Effect.reconcile msg (some e),
           Effect.log Level.warn "error creating or updating VM : %w",
           Effect.publish cfg.incomingQueue cfg.inQName false false
             { ContentType := "application/json"
               Body := marshalDiscardingError
                 { msg with FailCount := T.wrap (msg.FailCount - 1) }
               Headers := [("x-delay", goInt.wrap (cfg.RETRY_DELAY * 1000))] },
           Effect.log Level.warn
             (if (w.Publish cfg.incomingQueue cfg.inQName
                   { ContentType := "application/json"
                     Body := marshalDiscardingError
                       { msg with FailCount := T.wrap (msg.FailCount - 1) }
                     Headers := [("x-delay", goInt.wrap (cfg.RETRY_DELAY * 1000))] }).isSome
              then "Error re-publishing message: %s"
              else "Re-sent message to RabbitMQ®️: %s")] } := by
  have hn : ¬ T.wrap (msg.FailCount - 1) ≤ 0 := not_le.mpr hgt
  simp [handleDelivery, h, hw, hn]

/-! ## What each way through the handler leaves in the trace -/

theorem trace_malformed (T : IntKind) (cfg : Config) (w : World) (d : Delivery)
    (e : String) (h : decode T d = Except.error e) :
    reconciles (handleDelivery T cfg w d).effects = []
    ∧ publications (handleDelivery T cfg w d).effects = []
    ∧ redeliveries (handleDelivery T cfg w d).effects = []
    ∧ notifications (handleDelivery T cfg w d).effects = [] := by
  rw [handleDelivery_malformed T cfg w d e h]
  simp [reconciles, reconcileOf, publications, publishOf, redeliveries, notifications,
    isFailedReconcile, isGoodReconcile]

theorem trace_success (T : IntKind) (cfg : Config) (w : World) (d : Delivery)
    (msg : Message) (h : decode T d = Except.ok msg) (hw : w.CreateOrUpdateVM msg = none) :
    reconciles (handleDelivery T cfg w d).effects = [msg]
    ∧ publications (handleDelivery T cfg w d).effects
        = [("", cfg.outQName,
            { ContentType := "application/json", Body := marshalDiscardingError msg
              Headers := [] })]
    ∧ redeliveries (handleDelivery T cfg w d).effects = []
    ∧ notifications (handleDelivery T cfg w d).effects
        = [("", cfg.outQName,
            { ContentType := "application/json", Body := marshalDiscardingError msg
              Headers := [] })] := by
  rw [handleDelivery_success T cfg w d msg h hw]
  cases (w.Publish "" cfg.outQName
      { ContentType := "application/json", Body := marshalDiscardingError msg
        Headers := [] }).isSome <;>
    simp [reconciles, reconcileOf, publications, publishOf, redeliveries, notifications,
      isFailedReconcile, isGoodReconcile]

theorem trace_drop (T : IntKind) (cfg : Config) (w : World) (d : Delivery)
    (msg : Message) (e : String) (h : decode T d = Except.ok msg)
    (hw : w.CreateOrUpdateVM msg = some e) (hle : T.wrap (msg.FailCount - 1) ≤ 0) :
    reconciles (handleDelivery T cfg w d).effects = [msg]
    ∧ publications (handleDelivery T cfg w d).effects = []
    ∧ redeliveries (handleDelivery T cfg w d).effects = []
    ∧ notifications (handleDelivery T cfg w d).effects = [] := by
  rw [handleDelivery_drop T cfg w d msg e h hw hle]
  simp [reconciles, reconcileOf, publications, publishOf, redeliveries, notifications,
    isFailedReconcile, isGoodReconcile]

theorem trace_redeliver (T : IntKind) (cfg : Config) (w : World) (d : Delivery)
    (msg : Message) (e : String) (h : decode T d = Except.ok msg)
    (hw : w.CreateOrUpdateVM msg = some e) (hgt : 0 < T.wrap (msg.FailCount - 1)) :
    reconciles (handleDelivery T cfg w d).effects = [msg]
    ∧ publications (handleDelivery T cfg w d).effects
        = [(cfg.incomingQueue, cfg.inQName,
            { ContentType := "application/json"
              Body := marshalDiscardingError
                { msg with FailCount := T.wrap (msg.FailCount - 1) }
              Headers := [("x-delay", goInt.wrap (cfg.RETRY_DELAY * 1000))] })]
    ∧ redeliveries (handleDelivery T cfg w d).effects
        = [(cfg.incomingQueue, cfg.inQName,
            { ContentType := "application/json"
              Body := marshalDiscardingError
                { msg with FailCount := T.wrap (msg.FailCount - 1) }
              Headers := [("x-delay", goInt.wrap (cfg.RETRY_DELAY * 1000))] })]
    ∧ notifications (handleDelivery T cfg w d).effects = [] := by
  rw [handleDelivery_redeliver T cfg w d msg e h hw hgt]
  simp [reconciles, reconcileOf, publications, publishOf, redeliveries, notifications,
    isFailedReconcile, isGoodReconcile]

theorem reconciles_of_decode_ok (T : IntKind) (cfg : Config) (w : World) (d : Delivery)
    (msg : Message) (h : decode T d = Except.ok msg) :
    reconciles (handleDelivery T cfg w d).effects = [msg] := by
  cases hw : w.CreateOrUpdateVM msg with
  | none => exact (trace_success T cfg w d msg h hw).1
  | some e =>
    rcases le_or_lt (T.wrap (msg.FailCount - 1)) 0 with hle | hgt
    · exact (trace_drop T cfg w d msg e h hw hle).1
    · exact (trace_redeliver T cfg w d msg e h hw hgt).1

/-! ## The claims about one delivery -/

/-- When the payload decodes to `msg` and reconcile returns ok, whatever the
budget of `msg`, the handler attempts exactly one publication, on the default
exchange (empty name) with the name of the outgoing queue as routing key, and
no redelivery; the body is the encoding of `msg` when the year of its
timestamp is in `0..9999`. -/
theorem success_publishes_encoding (T : IntKind) (cfg : Config) (w : World)
    (d : Delivery) (msg : Message) (h : decode T d = Except.ok msg)
    (hw : w.CreateOrUpdateVM msg = none) (ht : timeInRange msg.Timestamp = true) :
    publications (handleDelivery T cfg w d).effects
        = [("", cfg.outQName,
            { ContentType := "application/json", Body := encode msg, Headers := [] })]
    ∧ redeliveries (handleDelivery T cfg w d).effects = [] := by
  obtain ⟨_, h2, h3, _⟩ := trace_success T cfg w d msg h hw
  rw [marshalDiscardingError_of_inRange msg ht] at h2
  exact ⟨h2, h3⟩

/-- C2, at the input where the body is not the encoding of the event: a delivery
whose timestamp is the first second of year 10000 and whose payload has only
`hostname = vm-a`, reconciled at the first attempt. `json.Marshal` fails on the
event, the handler discards the error and publishes the success notification
with an empty body. -/
theorem success_publishes_empty_body_in_year_10000 :
    decode IntKind.int64
        { Body := Payload.record
            { hostname := JsonField.value "vm-a", inventory := JsonField.missing,
              timestamp := JsonField.missing, fail_count := JsonField.missing },
          Timestamp := 253402300800 }
      = Except.ok
          { Hostname := "vm-a", Inventory := [], Timestamp := 253402300800, FailCount := 20 }
    ∧ marshal { Hostname := "vm-a", Inventory := [], Timestamp := 253402300800, FailCount := 20 }
      = Except.error "Time.MarshalJSON: year outside of range [0,9999]"
    ∧ publications (handleDelivery IntKind.int64
        { incomingQueue := "vm-in", inQName := "vm-in", outQName := "vm-out", RETRY_DELAY := 5 }
        { CreateOrUpdateVM := fun _ => none, Publish := fun _ _ _ => none }
        { Body := Payload.record
            { hostname := JsonField.value "vm-a", inventory := JsonField.missing,
              timestamp := JsonField.missing, fail_count := JsonField.missing },
          Timestamp := 253402300800 }).effects
      = [("", "vm-out",
          { ContentType := "application/json", Body := Payload.invalid "", Headers := [] })]
    ∧ Payload.invalid ""
      ≠ encode { Hostname := "vm-a", Inventory := [], Timestamp := 253402300800
                 FailCount := 20 } :=
  ⟨rfl, rfl, by decide, by decide⟩

/-- C3: a payload that fails to decode leads to no reconcile call and to no
publication, neither a success notification nor a redelivery. -/
theorem malformed_no_reconcile_no_publication (T : IntKind) (cfg : Config) (w : World)
    (d : Delivery) (e : String) (h : decode T d = Except.error e) :
    reconciles (handleDelivery T cfg w d).effects = []
    ∧ publications (handleDelivery T cfg w d).effects = []
    ∧ redeliveries (handleDelivery T cfg w d).effects = []
    ∧ notifications (handleDelivery T cfg w d).effects = [] :=
  trace_malformed T cfg w d e h

/-- Scenario S5: the bytes `not-json`. -/
theorem malformed_no_reconcile_no_publication_witness :
    decode IntKind.int64 { Body := Payload.invalid "not-json", Timestamp := 0 }
      = Except.error "invalid character looking for beginning of value"
    ∧ reconciles (handleDelivery IntKind.int64
        { incomingQueue := "vm-in", inQName := "vm-in", outQName := "vm-out", RETRY_DELAY := 5 }
        { CreateOrUpdateVM := fun _ => none, Publish := fun _ _ _ => none }
        { Body := Payload.invalid "not-json", Timestamp := 0 }).effects = []
    ∧ publications (handleDelivery IntKind.int64
        { incomingQueue := "vm-in", inQName := "vm-in", outQName := "vm-out", RETRY_DELAY := 5 }
        { CreateOrUpdateVM := fun _ => none, Publish := fun _ _ _ => none }
        { Body := Payload.invalid "not-json", Timestamp := 0 }).effects = [] :=
  ⟨rfl,
   (malformed_no_reconcile_no_publication IntKind.int64
     { incomingQueue := "vm-in", inQName := "vm-in", outQName := "vm-out", RETRY_DELAY := 5 }
     { CreateOrUpdateVM := fun _ => none, Publish := fun _ _ _ => none }
     { Body := Payload.invalid "not-json", Timestamp := 0 }
     "invalid character looking for beginning of value" rfl).1,
   (malformed_no_reconcile_no_publication IntKind.int64
     { incomingQueue := "vm-in", inQName := "vm-in", outQName := "vm-out", RETRY_DELAY := 5 }
     { CreateOrUpdateVM := fun _ => none, Publish := fun _ _ _ => none }
     { Body := Payload.invalid "not-json", Timestamp := 0 }
     "invalid character looking for beginning of value" rfl).2.1⟩

/-- C4, at the input where the default survives a present field: the payload has
the member `fail_count` with the value `null`; it decodes, and the event handed
to reconcile has budget 20. -/
theorem default_budget_survives_null :
    ({ hostname := JsonField.value "vm-d", inventory := JsonField.missing,
       timestamp := JsonField.missing, fail_count := JsonField.null } : Record).fail_count.present
      = true
    ∧ decode IntKind.int64
        { Body := Payload.record
            { hostname := JsonField.value "vm-d", inventory := JsonField.missing,
              timestamp := JsonField.missing, fail_count := JsonField.null },
          Timestamp := 0 }
      = Except.ok { Hostname := "vm-d", Inventory := [], Timestamp := 0, FailCount := 20 }
    ∧ reconciles (handleDelivery IntKind.int64
        { incomingQueue := "vm-in", inQName := "vm-in", outQName := "vm-out", RETRY_DELAY := 5 }
        { CreateOrUpdateVM := fun _ => none, Publish := fun _ _ _ => none }
        { Body := Payload.record
            { hostname := JsonField.value "vm-d", inventory := JsonField.missing,
              timestamp := JsonField.missing, fail_count := JsonField.null },
          Timestamp := 0 }).effects
      = [{ Hostname := "vm-d", Inventory := [], Timestamp := 0, FailCount := 20 }] :=
  ⟨rfl, rfl, by decide⟩

/-- C4, amended: for a payload that decodes to `msg`, the event handed to
reconcile is `msg`; its `fail_count` is the number the payload gives the member
`fail_count` when it gives one, and is 20 otherwise, that is when the member is
missing, when it is `null`, and when the payload as a whole is `null`. -/
theorem budget_is_payload_number_or_default (T : IntKind) (cfg : Config) (w : World)
    (d : Delivery) (msg : Message) (h : decode T d = Except.ok msg) :
    reconciles (handleDelivery T cfg w d).effects = [msg]
    ∧ ((d.Body = Payload.null ∧ msg.FailCount = 20)
      ∨ ∃ r, d.Body = Payload.record r
          ∧ (∀ v, r.fail_count = JsonField.value v → msg.FailCount = v)
          ∧ (r.fail_count = JsonField.missing → msg.FailCount = 20)
          ∧ (r.fail_count = JsonField.null → msg.FailCount = 20)) := by
  refine ⟨reconciles_of_decode_ok T cfg w d msg h, ?_⟩
  rcases decode_ok_cases T d msg h with ⟨hb, hm⟩ | ⟨r, hb, hm, _, _⟩
  · left
    exact ⟨hb, by rw [hm]; rfl⟩
  · right
    refine ⟨r, hb, ?_, ?_, ?_⟩
    · intro v hf
      rw [hm]
      simp [hf, JsonField.getD]
    · intro hf
      rw [hm]
      simp [hf, JsonField.getD]
    · intro hf
      rw [hm]
      simp [hf, JsonField.getD]

/-- A payload without `fail_count` reaches reconcile with budget 20, one with
`fail_count` 3 with budget 3. -/
theorem budget_is_payload_number_or_default_witness :
    reconciles (handleDelivery IntKind.int64
        { incomingQueue := "vm-in", inQName := "vm-in", outQName := "vm-out", RETRY_DELAY := 5 }
        { CreateOrUpdateVM := fun _ => none, Publish := fun _ _ _ => none }
        { Body := Payload.record
            { hostname := JsonField.value "vm-d", inventory := JsonField.missing,
              timestamp := JsonField.missing, fail_count := JsonField.missing },
          Timestamp := 0 }).effects
      = [{ Hostname := "vm-d", Inventory := [], Timestamp := 0, FailCount := 20 }]
    ∧ reconciles (handleDelivery IntKind.int64
        { incomingQueue := "vm-in", inQName := "vm-in", outQName := "vm-out", RETRY_DELAY := 5 }
        { CreateOrUpdateVM := fun _ => none, Publish := fun _ _ _ => none }
        { Body := Payload.record
            { hostname := JsonField.value "vm-b", inventory := JsonField.missing,
              timestamp := JsonField.missing, fail_count := JsonField.value 3 },
          Timestamp := 0 }).effects
      = [{ Hostname := "vm-b", Inventory := [], Timestamp := 0, FailCount := 3 }] :=
  ⟨(budget_is_payload_number_or_default IntKind.int64
      { incomingQueue := "vm-in", inQName := "vm-in", outQName := "vm-out", RETRY_DELAY := 5 }
      { CreateOrUpdateVM := fun _ => none, Publish := fun _ _ _ => none }
      { Body := Payload.record
          { hostname := JsonField.value "vm-d", inventory := JsonField.missing,
            timestamp := JsonField.missing, fail_count := JsonField.missing },
        Timestamp := 0 }
      { Hostname := "vm-d", Inventory := [], Timestamp := 0, FailCount := 20 } rfl).1,
   (budget_is_payload_number_or_default IntKind.int64
      { incomingQueue := "vm-in", inQName := "vm-in", outQName := "vm-out", RETRY_DELAY := 5 }
      { CreateOrUpdateVM := fun _ => none, Publish := fun _ _ _ => none }
      { Body := Payload.record
          { hostname := JsonField.value "vm-b", inventory := JsonField.missing,
            timestamp := JsonField.missing, fail_count := JsonField.value 3 },
        Timestamp := 0 }
      { Hostname := "vm-b", Inventory := [], Timestamp := 0, FailCount := 3 } rfl).1⟩

/-- C10: on every delivery and for every result of the two fallible calls, the
handler calls reconcile at most once and attempts at most one publication,
never both a success notification and a redelivery; reconcile is called
exactly once, on the decoded event, when the payload decodes, whatever its
budget, and not at all when it does not. -/
theorem at_most_one_reconcile_and_one_publication (T : IntKind) (cfg : Config) (w : World)
    (d : Delivery) :
    (reconciles (handleDelivery T cfg w d).effects).length ≤ 1
    ∧ (publications (handleDelivery T cfg w d).effects).length ≤ 1
    ∧ (notifications (handleDelivery T cfg w d).effects = []
        ∨ redeliveries (handleDelivery T cfg w d).effects = [])
    ∧ reconciles (handleDelivery T cfg w d).effects
        = (match decode T d with
           | Except.ok msg => [msg]
           | Except.error _ => []) := by
  cases h : decode T d with
  | error e =>
    obtain ⟨h1, h2, h3, h4⟩ := trace_malformed T cfg w d e h
    simp [h1, h2, h3, h4]
  | ok msg =>
    cases hw : w.CreateOrUpdateVM msg with
    | none =>
      obtain ⟨h1, h2, h3, h4⟩ := trace_success T cfg w d msg h hw
      simp [h1, h2, h3]
    | some e =>
      rcases le_or_lt (T.wrap (msg.FailCount - 1)) 0 with hle | hgt
      · obtain ⟨h1, h2, h3, h4⟩ := trace_drop T cfg w d msg e h hw hle
        simp [h1, h2, h3]
      · obtain ⟨h1, h2, h3, h4⟩ := trace_redeliver T cfg w d msg e h hw hgt
        simp [h1, h2, h4]

/-- When the payload decodes to `msg`, reconcile fails, `msg.FailCount - 1 > 0`
and the year of the timestamp of `msg` is in `0..9999`, the one publication is
the redelivery whose body encodes the event with the hostname, inventory fields
and timestamp of `msg` and with budget `msg.FailCount - 1`; the handler's `msg`
is still the decoded event when it returns, the decrement having been made on
the copy `newMsg`. -/
theorem redelivery_differs_only_in_budget (T : IntKind) (cfg : Config) (w : World)
    (d : Delivery) (msg : Message) (e : String) (h : decode T d = Except.ok msg)
    (hw : w.CreateOrUpdateVM msg = some e) (hgt : msg.FailCount - 1 > 0)
    (ht : timeInRange msg.Timestamp = true) :
    publications (handleDelivery T cfg w d).effects
        = [(cfg.incomingQueue, cfg.inQName,
            { ContentType := "application/json"
              Body := encode
                { Hostname := msg.Hostname, Inventory := msg.Inventory
                  Timestamp := msg.Timestamp, FailCount := msg.FailCount - 1 }
              Headers := [("x-delay", goInt.wrap (cfg.RETRY_DELAY * 1000))] })]
    ∧ (handleDelivery T cfg w d).msg = msg
    ∧ (handleDelivery T cfg w d).newMsg
        = some { Hostname := msg.Hostname, Inventory := msg.Inventory
                 Timestamp := msg.Timestamp, FailCount := msg.FailCount - 1 } := by
  have hr := (IntKind.inRange_iff T msg.FailCount).mp (decode_ok_inRange T d msg h)
  have hmin := IntKind.minVal_nonpos T
  have hwrap : T.wrap (msg.FailCount - 1) = msg.FailCount - 1 :=
    IntKind.wrap_pred T msg.FailCount (by omega) hr.2
  have hpos : 0 < T.wrap (msg.FailCount - 1) := by rw [hwrap]; exact hgt
  refine ⟨?_, ?_, ?_⟩
  · rw [(trace_redeliver T cfg w d msg e h hw hpos).2.1, hwrap,
      marshalDiscardingError_of_inRange
        { Hostname := msg.Hostname, Inventory := msg.Inventory
          Timestamp := msg.Timestamp, FailCount := msg.FailCount - 1 } ht]
  · rw [handleDelivery_redeliver T cfg w d msg e h hw hpos]
  · rw [handleDelivery_redeliver T cfg w d msg e h hw hpos, hwrap]

/-- C9, at the input where the redelivery is not the encoding of the event: a
delivery whose timestamp is the first second of year 10000, with payload
`hostname = vm-b`, `fail_count = 3`, and reconcile failing, so that
`fail_count - 1 > 0`. `json.Marshal` fails on the copy with budget 2, the handler
discards the error and publishes the redelivery with an empty body, which
encodes no event and carries no budget. -/
theorem redelivery_has_empty_body_in_year_10000 :
    decode IntKind.int64
        { Body := Payload.record
            { hostname := JsonField.value "vm-b", inventory := JsonField.missing,
              timestamp := JsonField.missing, fail_count := JsonField.value 3 },
          Timestamp := 253402300800 }
      = Except.ok
          { Hostname := "vm-b", Inventory := [], Timestamp := 253402300800, FailCount := 3 }
    ∧ marshal { Hostname := "vm-b", Inventory := [], Timestamp := 253402300800, FailCount := 2 }
      = Except.error "Time.MarshalJSON: year outside of range [0,9999]"
    ∧ publications (handleDelivery IntKind.int64
        { incomingQueue := "vm-in", inQName := "vm-in", outQName := "vm-out", RETRY_DELAY := 5 }
        { CreateOrUpdateVM := fun _ => some "timeout", Publish := fun _ _ _ => none }
        { Body := Payload.record
            { hostname := JsonField.value "vm-b", inventory := JsonField.missing,
              timestamp := JsonField.missing, fail_count := JsonField.value 3 },
          Timestamp := 253402300800 }).effects
      = [("vm-in", "vm-in",
          { ContentType := "application/json", Body := Payload.invalid ""
            Headers := [("x-delay", 5000)] })]
    ∧ Payload.invalid ""
      ≠ encode { Hostname := "vm-b", Inventory := [], Timestamp := 253402300800
                 FailCount := 2 }
    ∧ (publications (handleDelivery IntKind.int64
        { incomingQueue := "vm-in", inQName := "vm-in", outQName := "vm-out", RETRY_DELAY := 5 }
        { CreateOrUpdateVM := fun _ => some "timeout", Publish := fun _ _ _ => none }
        { Body := Payload.record
            { hostname := JsonField.value "vm-b", inventory := JsonField.missing,
              timestamp := JsonField.missing, fail_count := JsonField.value 3 },
          Timestamp := 253402300800 }).effects).map budgetOf = [none] :=
  ⟨rfl, rfl, by decide, by decide, by decide⟩

/-! ## The decrement at the smallest value of the type -/

/-- A failed reconcile of an event whose budget is the smallest value of the
type of `FailCount` is followed by a redelivery with the largest value: the
decrement wraps around and the test `newMsg.FailCount <= 0` is false. -/
theorem trace_at_minVal (T : IntKind) (cfg : Config)
    (publish : String → String → Publishing → Option String) (e : String)
    (hostname : JsonField String) (inventory : JsonField Fields) (ts : Int) :
    publications (handleDelivery T cfg
        { CreateOrUpdateVM := fun _ => some e, Publish := publish }
        { Body := Payload.record
            { hostname := hostname, inventory := inventory, timestamp := JsonField.missing
              fail_count := JsonField.value T.minVal }
          Timestamp := ts }).effects
      = [(cfg.incomingQueue, cfg.inQName,
          { ContentType := "application/json"
            Body := marshalDiscardingError
              { Hostname := hostname.getD "", Inventory := inventory.getD []
                Timestamp := ts, FailCount := T.maxVal }
            Headers := [("x-delay", goInt.wrap (cfg.RETRY_DELAY * 1000))] })] := by
  have hd := decode_record T
    { hostname := hostname, inventory := inventory, timestamp := JsonField.missing
      fail_count := JsonField.value T.minVal } ts
    (by intro v hv; injection hv with hv; rw [← hv]; exact IntKind.inRange_minVal T)
    (by intro t ht; cases ht)
  have hpos : 0 < T.wrap (T.minVal - 1) := by
    rw [IntKind.wrap_pred_minVal]; exact IntKind.maxVal_pos T
  have := (trace_redeliver T cfg
    { CreateOrUpdateVM := fun _ => some e, Publish := publish } _ _ e hd rfl hpos).2.1
  rw [this]
  simp [IntKind.wrap_pred_minVal, JsonField.getD]

/-- Away from the smallest value of the type of `FailCount`, for an event that
`json.Marshal` encodes and with a delay whose milliseconds fit `int`, the
publications of the handler are those of the action `decide(outcome,
fail_count)` of the specification. -/
theorem handler_follows_decide_above_minVal (T : IntKind) (cfg : Config) (w : World)
    (d : Delivery) (msg : Message) (h : decode T d = Except.ok msg)
    (hmin : msg.FailCount ≠ T.minVal)
    (ht : timeInRange msg.Timestamp = true)
    (hdelay : goInt.inRange (cfg.RETRY_DELAY * 1000) = true) :
    publications (handleDelivery T cfg w d).effects
      = perform cfg msg (Spec.decide cfg.RETRY_DELAY (outcomeOf w msg) msg.FailCount) := by
  have hr := (IntKind.inRange_iff T msg.FailCount).mp (decode_ok_inRange T d msg h)
  have hwrap : T.wrap (msg.FailCount - 1) = msg.FailCount - 1 :=
    IntKind.wrap_pred T msg.FailCount (lt_of_le_of_ne hr.1 (Ne.symm hmin)) hr.2
  cases hw : w.CreateOrUpdateVM msg with
  | none =>
    rw [(trace_success T cfg w d msg h hw).2.1, marshalDiscardingError_of_inRange msg ht]
    simp [outcomeOf, hw, Spec.decide, perform]
  | some e =>
    rcases le_or_lt (msg.FailCount - 1) 0 with hle | hgt
    · rw [(trace_drop T cfg w d msg e h hw (by rw [hwrap]; exact hle)).2.1]
      simp [outcomeOf, hw, Spec.decide, perform, hle]
    · rw [(trace_redeliver T cfg w d msg e h hw (by rw [hwrap]; exact hgt)).2.1, hwrap,
        IntKind.wrap_of_inRange goInt _ hdelay,
        marshalDiscardingError_of_inRange
          { Hostname := msg.Hostname, Inventory := msg.Inventory
            Timestamp := msg.Timestamp, FailCount := msg.FailCount - 1 } ht]
      simp [outcomeOf, hw, Spec.decide, perform, not_le.mpr hgt]

/-- Away from the smallest value of the type of `FailCount`, and for an event
that `json.Marshal` encodes, a redelivery carries the budget of the consumed
event minus one, which is positive. -/
theorem redelivered_budget_above_minVal (T : IntKind) (cfg : Config) (w : World)
    (d : Delivery) (msg : Message) (h : decode T d = Except.ok msg)
    (hmin : msg.FailCount ≠ T.minVal)
    (ht : timeInRange msg.Timestamp = true)
    (p : String × String × Publishing)
    (hp : p ∈ redeliveries (handleDelivery T cfg w d).effects) :
    budgetOf p = some (msg.FailCount - 1) ∧ 0 < msg.FailCount - 1 := by
  have hr := (IntKind.inRange_iff T msg.FailCount).mp (decode_ok_inRange T d msg h)
  have hwrap : T.wrap (msg.FailCount - 1) = msg.FailCount - 1 :=
    IntKind.wrap_pred T msg.FailCount (lt_of_le_of_ne hr.1 (Ne.symm hmin)) hr.2
  cases hw : w.CreateOrUpdateVM msg with
  | none =>
    rw [(trace_success T cfg w d msg h hw).2.2.1] at hp
    cases hp
  | some e =>
    rcases le_or_lt (msg.FailCount - 1) 0 with hle | hgt
    · rw [(trace_drop T cfg w d msg e h hw (by rw [hwrap]; exact hle)).2.2.1] at hp
      cases hp
    · rw [(trace_redeliver T cfg w d msg e h hw (by rw [hwrap]; exact hgt)).2.2.1, hwrap,
        marshalDiscardingError_of_inRange
          { Hostname := msg.Hostname, Inventory := msg.Inventory
            Timestamp := msg.Timestamp, FailCount := msg.FailCount - 1 } ht] at hp
      simp only [List.mem_singleton] at hp
      subst hp
      exact ⟨rfl, hgt⟩

/-- C1, at the input where the handler leaves `decide`: the payload decodes to an
event with `fail_count = -9223372036854775808` (the smallest `int64`) and
reconcile fails. `decide` answers `drop`, to be carried out by no publication,
since `fail_count - 1 ≤ 0`; the handler publishes a redelivery with budget
`9223372036854775807`. -/
theorem handler_leaves_decide_at_min_int64 :
    decode IntKind.int64
        { Body := Payload.record
            { hostname := JsonField.value "vm-c", inventory := JsonField.missing,
              timestamp := JsonField.missing, fail_count := JsonField.value (-9223372036854775808) },
          Timestamp := 0 }
      = Except.ok
          { Hostname := "vm-c", Inventory := [], Timestamp := 0
            FailCount := -9223372036854775808 }
    ∧ Spec.decide 5 Spec.Outcome.error (-9223372036854775808) = Spec.Action.drop
    ∧ perform
        { incomingQueue := "vm-in", inQName := "vm-in", outQName := "vm-out", RETRY_DELAY := 5 }
        { Hostname := "vm-c", Inventory := [], Timestamp := 0
          FailCount := -9223372036854775808 }
        (Spec.decide 5 Spec.Outcome.error (-9223372036854775808)) = []
    ∧ publications (handleDelivery IntKind.int64
        { incomingQueue := "vm-in", inQName := "vm-in", outQName := "vm-out", RETRY_DELAY := 5 }
        { CreateOrUpdateVM := fun _ => some "timeout", Publish := fun _ _ _ => none }
        { Body := Payload.record
            { hostname := JsonField.value "vm-c", inventory := JsonField.missing,
              timestamp := JsonField.missing, fail_count := JsonField.value (-9223372036854775808) },
          Timestamp := 0 }).effects
      = [("vm-in", "vm-in",
          { ContentType := "application/json"
            Body := Payload.record
              { hostname := JsonField.value "vm-c", inventory := JsonField.value []
                timestamp := JsonField.value 0
                fail_count := JsonField.value 9223372036854775807 }
            Headers := [("x-delay", 5000)] })] := by
  refine ⟨rfl, rfl, rfl, ?_⟩
  exact trace_at_minVal IntKind.int64
    { incomingQueue := "vm-in", inQName := "vm-in", outQName := "vm-out", RETRY_DELAY := 5 }
    (fun _ _ _ => none) "timeout" (JsonField.value "vm-c") JsonField.missing 0

/-- C6, at the input where the budget does not decrease: the consumed event has
budget `-9223372036854775808` (the smallest `int64`), reconcile fails, and the
handler publishes one redelivery, with budget `9223372036854775807`, which is
not below the consumed budget. -/
theorem redelivered_budget_increases_at_min_int64 :
    reconciles (handleDelivery IntKind.int64
        { incomingQueue := "vm-in", inQName := "vm-in", outQName := "vm-out", RETRY_DELAY := 5 }
        { CreateOrUpdateVM := fun _ => some "timeout", Publish := fun _ _ _ => none }
        { Body := Payload.record
            { hostname := JsonField.value "vm-c", inventory := JsonField.missing,
              timestamp := JsonField.missing, fail_count := JsonField.value (-9223372036854775808) },
          Timestamp := 0 }).effects
      = [{ Hostname := "vm-c", Inventory := [], Timestamp := 0
           FailCount := -9223372036854775808 }]
    ∧ (redeliveries (handleDelivery IntKind.int64
        { incomingQueue := "vm-in", inQName := "vm-in", outQName := "vm-out", RETRY_DELAY := 5 }
        { CreateOrUpdateVM := fun _ => some "timeout", Publish := fun _ _ _ => none }
        { Body := Payload.record
            { hostname := JsonField.value "vm-c", inventory := JsonField.missing,
              timestamp := JsonField.missing, fail_count := JsonField.value (-9223372036854775808) },
          Timestamp := 0 }).effects).map budgetOf
      = [some 9223372036854775807]
    ∧ ¬ ((9223372036854775807 : Int) < -9223372036854775808) := by
  decide

/-! ## Delay header and routing of a redelivery -/

theorem redelivery_shape (T : IntKind) (cfg : Config) (w : World) (d : Delivery)
    (p : String × String × Publishing)
    (hp : p ∈ redeliveries (handleDelivery T cfg w d).effects) :
    p.1 = cfg.incomingQueue ∧ p.2.1 = cfg.inQName
    ∧ p.2.2.Headers = [("x-delay", goInt.wrap (cfg.RETRY_DELAY * 1000))] := by
  cases h : decode T d with
  | error e =>
    rw [(trace_malformed T cfg w d e h).2.2.1] at hp
    cases hp
  | ok msg =>
    cases hw : w.CreateOrUpdateVM msg with
    | none =>
      rw [(trace_success T cfg w d msg h hw).2.2.1] at hp
      cases hp
    | some e =>
      rcases le_or_lt (T.wrap (msg.FailCount - 1)) 0 with hle | hgt
      · rw [(trace_drop T cfg w d msg e h hw hle).2.2.1] at hp
        cases hp
      · rw [(trace_redeliver T cfg w d msg e h hw hgt).2.2.1] at hp
        simp only [List.mem_singleton] at hp
        subst hp
        exact ⟨rfl, rfl, rfl⟩

/-- A failed reconcile with budget left is followed by a redelivery: the
statements about every redelivery are not empty ones. -/
theorem redelivery_exists (T : IntKind) (cfg : Config) (w : World) (d : Delivery)
    (msg : Message) (e : String) (h : decode T d = Except.ok msg)
    (hw : w.CreateOrUpdateVM msg = some e) (hgt : 0 < T.wrap (msg.FailCount - 1)) :
    (redeliveries (handleDelivery T cfg w d).effects).length = 1 := by
  rw [(trace_redeliver T cfg w d msg e h hw hgt).2.2.1]
  rfl

theorem loadRetryDelay_none : loadRetryDelay none = 5 := rfl

theorem loadRetryDelay_of_atoi_none (v : String) (h : atoi v = none) :
    loadRetryDelay (some v) = 5 := by
  simp [loadRetryDelay, h, RETRY_DELAY]

theorem loadRetryDelay_of_atoi_some (v : String) (i : Int) (h : atoi v = some i) :
    loadRetryDelay (some v) = i := by
  simp [loadRetryDelay, h]

theorem goInt_wrap_millis (x : Int) (h1 : -9223372036854775 ≤ x) (h2 : x ≤ 9223372036854775) :
    goInt.wrap (x * 1000) = x * 1000 := by
  apply IntKind.wrap_of_inRange
  rw [IntKind.inRange_iff]
  simp only [goInt, IntKind.minVal, IntKind.maxVal]
  omega

theorem int32_wrap_millis (x : Int) (h1 : -2147483 ≤ x) (h2 : x ≤ 2147483) :
    IntKind.int32.wrap (x * 1000) = x * 1000 := by
  apply IntKind.wrap_of_inRange
  rw [IntKind.inRange_iff]
  simp only [IntKind.minVal, IntKind.maxVal]
  omega

/-- The delay header of a redelivery, as handed to `ch.Publish` and as the
broker receives it, when the delay is between `-2147483` and `2147483` seconds. -/
theorem redelivery_headers_exact (T : IntKind) (cfg : Config) (w : World) (d : Delivery)
    (p : String × String × Publishing)
    (hp : p ∈ redeliveries (handleDelivery T cfg w d).effects)
    (h1 : -2147483 ≤ cfg.RETRY_DELAY) (h2 : cfg.RETRY_DELAY ≤ 2147483) :
    p.2.2.Headers = [("x-delay", cfg.RETRY_DELAY * 1000)]
    ∧ (onWire p.2.2).Headers = [("x-delay", cfg.RETRY_DELAY * 1000)] := by
  have h3 := (redelivery_shape T cfg w d p hp).2.2
  rw [goInt_wrap_millis _ (by omega) (by omega)] at h3
  refine ⟨h3, ?_⟩
  simp [onWire, h3, int32_wrap_millis _ h1 h2]

/-- C5, where the header is not `RETRY_DELAY * 1000`. Started with
`RABBITMQ_RETRY_DELAY=2147484`, `RETRY_DELAY` is `2147484` and the redelivery
reaches the broker with `x-delay = -2147483296`: the product `2147484000` does
not fit the 32 bit field it is written in. Started with
`RABBITMQ_RETRY_DELAY=9223372036854775807`, which `strconv.Atoi` accepts, the
value handed to `ch.Publish` is already `-1000`. -/
theorem x_delay_not_exact_from_2147484 :
    loadRetryDelay (some "2147484") = 2147484
    ∧ (redeliveries (handleDelivery IntKind.int64
        (mainConfig "vm-in" "vm-in" "vm-out" (some "2147484"))
        { CreateOrUpdateVM := fun _ => some "timeout", Publish := fun _ _ _ => none }
        { Body := Payload.record
              { hostname := JsonField.value "vm-b", inventory := JsonField.missing,
                timestamp := JsonField.missing, fail_count := JsonField.value 3 },
            Timestamp := 0 }).effects).map (fun p => (onWire p.2.2).Headers)
      = [[("x-delay", -2147483296)]]
    ∧ (-2147483296 : Int) ≠ 2147484 * 1000
    ∧ loadRetryDelay (some "9223372036854775807") = 9223372036854775807
    ∧ (redeliveries (handleDelivery IntKind.int64
        (mainConfig "vm-in" "vm-in" "vm-out" (some "9223372036854775807"))
        { CreateOrUpdateVM := fun _ => some "timeout", Publish := fun _ _ _ => none }
        { Body := Payload.record
              { hostname := JsonField.value "vm-b", inventory := JsonField.missing,
                timestamp := JsonField.missing, fail_count := JsonField.value 3 },
            Timestamp := 0 }).effects).map (fun p => p.2.2.Headers)
      = [[("x-delay", -1000)]]
    ∧ (-1000 : Int) ≠ 9223372036854775807 * 1000 := by
  decide

/-- C5, amended: every redelivery of the handler (every publication that follows
a failed reconcile) goes to the exchange named by the incoming queue variable,
with the name of the incoming queue as routing key, and, when `RETRY_DELAY` is
between `-2147483` and `2147483`, carries the single header `x-delay` with the
value `RETRY_DELAY * 1000`, both as handed to `ch.Publish` and as the broker
receives it. `RETRY_DELAY` is 5 when `RABBITMQ_RETRY_DELAY` is unset or is not
accepted by `strconv.Atoi`, and the parsed value otherwise, so that the
default gives `x-delay = 5000` and the value `30` gives `30000`. -/
theorem redelivery_exchange_key_and_delay (T : IntKind)
    (incomingQueue inQName outQName : String) (lookup : Option String) (w : World)
    (d : Delivery) (p : String × String × Publishing)
    (hp : p ∈ redeliveries
      (handleDelivery T (mainConfig incomingQueue inQName outQName lookup) w d).effects) :
    p.1 = incomingQueue ∧ p.2.1 = inQName
    ∧ (-2147483 ≤ loadRetryDelay lookup ∧ loadRetryDelay lookup ≤ 2147483 →
        p.2.2.Headers = [("x-delay", loadRetryDelay lookup * 1000)]
        ∧ (onWire p.2.2).Headers = [("x-delay", loadRetryDelay lookup * 1000)])
    ∧ (lookup = none →
        loadRetryDelay lookup = 5 ∧ (onWire p.2.2).Headers = [("x-delay", 5000)])
    ∧ (∀ v, lookup = some v → atoi v = none →
        loadRetryDelay lookup = 5 ∧ (onWire p.2.2).Headers = [("x-delay", 5000)])
    ∧ (∀ v i, lookup = some v → atoi v = some i → loadRetryDelay lookup = i)
    ∧ (lookup = some "30" →
        loadRetryDelay lookup = 30 ∧ (onWire p.2.2).Headers = [("x-delay", 30000)]) := by
  obtain ⟨h1, h2, _⟩ :=
    redelivery_shape T (mainConfig incomingQueue inQName outQName lookup) w d p hp
  have hx : ∀ x : Int, loadRetryDelay lookup = x → -2147483 ≤ x → x ≤ 2147483 →
      p.2.2.Headers = [("x-delay", x * 1000)]
      ∧ (onWire p.2.2).Headers = [("x-delay", x * 1000)] := by
    intro x hx hlo hhi
    have := redelivery_headers_exact T (mainConfig incomingQueue inQName outQName lookup)
      w d p hp (by show -2147483 ≤ loadRetryDelay lookup; omega)
      (by show loadRetryDelay lookup ≤ 2147483; omega)
    rw [← hx]
    exact this
  refine ⟨h1, h2, ?_, ?_, ?_, ?_, ?_⟩
  · rintro ⟨hlo, hhi⟩
    exact hx _ rfl hlo hhi
  · intro hl
    have h5 : loadRetryDelay lookup = 5 := by rw [hl]; rfl
    exact ⟨h5, (hx 5 h5 (by decide) (by decide)).2⟩
  · intro v hl hv
    have h5 : loadRetryDelay lookup = 5 := by rw [hl]; exact loadRetryDelay_of_atoi_none v hv
    exact ⟨h5, (hx 5 h5 (by decide) (by decide)).2⟩
  · intro v i hl hv
    rw [hl, loadRetryDelay_of_atoi_some v i hv]
  · intro hl
    have h30 : loadRetryDelay lookup = 30 := by rw [hl]; decide
    exact ⟨h30, (hx 30 h30 (by decide) (by decide)).2⟩

/-- Scenario S7: with `RABBITMQ_RETRY_DELAY=30` the redelivery of `vm-b` carries
`x-delay = 30000`. -/
theorem redelivery_exchange_key_and_delay_witness :
    ("vm-in", "vm-in",
        ({ ContentType := "application/json"
           Body := Payload.record
             { hostname := JsonField.value "vm-b", inventory := JsonField.value []
               timestamp := JsonField.value 0, fail_count := JsonField.value 2 }
           Headers := [("x-delay", 30000)] } : Publishing))
      ∈ redeliveries (handleDelivery IntKind.int64
          (mainConfig "vm-in" "vm-in" "vm-out" (some "30"))
          { CreateOrUpdateVM := fun _ => some "timeout", Publish := fun _ _ _ => none }
          { Body := Payload.record
              { hostname := JsonField.value "vm-b", inventory := JsonField.missing,
                timestamp := JsonField.missing, fail_count := JsonField.value 3 },
            Timestamp := 0 }).effects
    ∧ (onWire
        { ContentType := "application/json"
          Body := Payload.record
            { hostname := JsonField.value "vm-b", inventory := JsonField.value []
              timestamp := JsonField.value 0, fail_count := JsonField.value 2 }
          Headers := [("x-delay", 30000)] }).Headers = [("x-delay", 30000)] :=
  ⟨by decide,
   ((redelivery_exchange_key_and_delay IntKind.int64 "vm-in" "vm-in" "vm-out" (some "30")
     { CreateOrUpdateVM := fun _ => some "timeout", Publish := fun _ _ _ => none }
     { Body := Payload.record
              { hostname := JsonField.value "vm-b", inventory := JsonField.missing,
                timestamp := JsonField.missing, fail_count := JsonField.value 3 },
            Timestamp := 0 }
     ("vm-in", "vm-in",
        { ContentType := "application/json"
          Body := Payload.record
            { hostname := JsonField.value "vm-b", inventory := JsonField.value []
              timestamp := JsonField.value 0, fail_count := JsonField.value 2 }
          Headers := [("x-delay", 30000)] })
     (by decide)).2.2.2.2.2.2 rfl).2⟩

/-! ## Chains of redeliveries -/

theorem Run.reconciles_cons (es : List Effect) (ts : List (List Effect)) (f : Option Terminal) :
    Run.reconciles { traces := es :: ts, final := f }
      = RhApi.reconciles es ++ Run.reconciles { traces := ts, final := none } := by
  simp [Run.reconciles]

theorem Run.redeliveries_cons (es : List Effect) (ts : List (List Effect))
    (f : Option Terminal) :
    Run.redeliveries { traces := es :: ts, final := f }
      = RhApi.redeliveries es ++ Run.redeliveries { traces := ts, final := none } := by
  simp [Run.redeliveries]

theorem Run.notifications_cons (es : List Effect) (ts : List (List Effect))
    (f : Option Terminal) :
    Run.notifications { traces := es :: ts, final := f }
      = RhApi.notifications es ++ Run.notifications { traces := ts, final := none } := by
  simp [Run.notifications]

theorem Run.reconciles_traces (r : Run) :
    Run.reconciles { traces := r.traces, final := none } = r.reconciles := rfl

theorem Run.redeliveries_traces (r : Run) :
    Run.redeliveries { traces := r.traces, final := none } = r.redeliveries := rfl

theorem Run.notifications_traces (r : Run) :
    Run.notifications { traces := r.traces, final := none } = r.notifications := rfl

theorem redeliveryChain_succ (T : IntKind) (cfg : Config) (outcomes : Nat → Option String)
    (fuel i : Nat) (d : Delivery) :
    redeliveryChain T cfg outcomes (fuel + 1) i d
      = match redeliveries (handleDelivery T cfg (chainWorld outcomes i) d).effects with
        | p :: _ =>
          { traces := (handleDelivery T cfg (chainWorld outcomes i) d).effects
              :: (redeliveryChain T cfg outcomes fuel (i + 1) (deliver p.2.2)).traces
            final := (redeliveryChain T cfg outcomes fuel (i + 1) (deliver p.2.2)).final }
        | [] =>
          { traces := [(handleDelivery T cfg (chainWorld outcomes i) d).effects]
            final := some (classify (handleDelivery T cfg (chainWorld outcomes i) d).effects) } :=
  rfl

/-- A delivery that does not decode ends the chain: malformed. -/
theorem redeliveryChain_malformed (T : IntKind) (cfg : Config)
    (outcomes : Nat → Option String) (fuel i : Nat) (d : Delivery) (e : String)
    (h : decode T d = Except.error e) :
    redeliveryChain T cfg outcomes (fuel + 1) i d
      = { traces := [(handleDelivery T cfg (chainWorld outcomes i) d).effects]
          final := some Terminal.malformed } := by
  obtain ⟨h1, _, h3, _⟩ := trace_malformed T cfg (chainWorld outcomes i) d e h
  rw [redeliveryChain_succ, h3]
  simp [classify, h1]

/-- A delivery whose reconcile succeeds ends the chain: notified. -/
theorem redeliveryChain_success (T : IntKind) (cfg : Config) (outcomes : Nat → Option String)
    (fuel i : Nat) (d : Delivery) (msg : Message) (h : decode T d = Except.ok msg)
    (ho : outcomes i = none) :
    redeliveryChain T cfg outcomes (fuel + 1) i d
      = { traces := [(handleDelivery T cfg (chainWorld outcomes i) d).effects]
          final := some Terminal.notified } := by
  obtain ⟨h1, _, h3, h4⟩ := trace_success T cfg (chainWorld outcomes i) d msg h ho
  rw [redeliveryChain_succ, h3]
  simp [classify, h1, h4]

/-- A delivery whose reconcile fails with the budget used up ends the chain:
dropped. -/
theorem redeliveryChain_drop (T : IntKind) (cfg : Config) (outcomes : Nat → Option String)
    (fuel i : Nat) (d : Delivery) (msg : Message) (e : String)
    (h : decode T d = Except.ok msg) (ho : outcomes i = some e)
    (hle : T.wrap (msg.FailCount - 1) ≤ 0) :
    redeliveryChain T cfg outcomes (fuel + 1) i d
      = { traces := [(handleDelivery T cfg (chainWorld outcomes i) d).effects]
          final := some Terminal.dropped } := by
  obtain ⟨h1, _, h3, h4⟩ := trace_drop T cfg (chainWorld outcomes i) d msg e h ho hle
  rw [redeliveryChain_succ, h3]
  simp [classify, h1, h4]

/-- A delivery whose reconcile fails with budget left is followed by the
delivery of what the handler published as the body of the redelivery. -/
theorem redeliveryChain_redeliver (T : IntKind) (cfg : Config)
    (outcomes : Nat → Option String) (fuel i : Nat) (d : Delivery) (msg : Message) (e : String)
    (h : decode T d = Except.ok msg) (ho : outcomes i = some e)
    (hgt : 0 < T.wrap (msg.FailCount - 1)) :
    redeliveryChain T cfg outcomes (fuel + 1) i d
      = { traces := (handleDelivery T cfg (chainWorld outcomes i) d).effects
            :: (redeliveryChain T cfg outcomes fuel (i + 1)
                { Body := marshalDiscardingError
                    { msg with FailCount := T.wrap (msg.FailCount - 1) }
                  Timestamp := zeroTime }).traces
          final := (redeliveryChain T cfg outcomes fuel (i + 1)
                { Body := marshalDiscardingError
                    { msg with FailCount := T.wrap (msg.FailCount - 1) }
                  Timestamp := zeroTime }).final } := by
  have h3 := (trace_redeliver T cfg (chainWorld outcomes i) d msg e h ho hgt).2.2.1
  rw [redeliveryChain_succ, h3]
  rfl

/-- The delivery of the redelivery of an event that `json.Marshal` encodes
decodes to the event with the decremented budget. -/
theorem decode_redelivery (T : IntKind) (msg : Message)
    (ht : timeInRange msg.Timestamp = true) :
    decode T
        { Body := marshalDiscardingError { msg with FailCount := T.wrap (msg.FailCount - 1) }
          Timestamp := zeroTime }
      = Except.ok { msg with FailCount := T.wrap (msg.FailCount - 1) } := by
  rw [marshalDiscardingError_of_inRange
    { msg with FailCount := T.wrap (msg.FailCount - 1) } ht]
  exact decode_encode T _ zeroTime (IntKind.inRange_wrap T _) ht

/-- With budget `n + 1`, an event that `json.Marshal` encodes, reconcile failing
at every delivery and at least `n + 1` deliveries of fuel: the redelivered
budgets are `n, ..., 1`, the budgets handed to reconcile are `n + 1, ..., 1`, the
chain ends dropped and nothing is notified. -/
theorem redeliveryChain_all_fail (T : IntKind) (cfg : Config) (errs : Nat → String)
    (n : Nat) : ∀ (fuel i : Nat) (d : Delivery) (msg : Message),
    decode T d = Except.ok msg → msg.FailCount = (n : Int) + 1 →
    timeInRange msg.Timestamp = true → n + 1 ≤ fuel →
    (redeliveryChain T cfg (fun j => some (errs j)) fuel i d).redeliveries.map budgetOf
        = (List.range n).reverse.map (fun (j : Nat) => some ((j : Int) + 1))
    ∧ (redeliveryChain T cfg (fun j => some (errs j)) fuel i d).reconciles.map
          Message.FailCount
        = (List.range (n + 1)).reverse.map (fun (j : Nat) => (j : Int) + 1)
    ∧ (redeliveryChain T cfg (fun j => some (errs j)) fuel i d).final = some Terminal.dropped
    ∧ (redeliveryChain T cfg (fun j => some (errs j)) fuel i d).notifications = [] := by
  induction n with
  | zero =>
    intro fuel i d msg h hfc ht hfuel
    obtain ⟨fuel, rfl⟩ : ∃ f, fuel = f + 1 := ⟨fuel - 1, by omega⟩
    have hr := (IntKind.inRange_iff T msg.FailCount).mp (decode_ok_inRange T d msg h)
    have hmin := IntKind.minVal_nonpos T
    have hwrap : T.wrap (msg.FailCount - 1) = msg.FailCount - 1 :=
      IntKind.wrap_pred T msg.FailCount (by omega) hr.2
    have hle : T.wrap (msg.FailCount - 1) ≤ 0 := by rw [hwrap]; omega
    obtain ⟨h1, _, h3, h4⟩ :=
      trace_drop T cfg (chainWorld (fun j => some (errs j)) i) d msg (errs i) h rfl hle
    rw [redeliveryChain_drop T cfg _ fuel i d msg (errs i) h rfl hle]
    refine ⟨?_, ?_, rfl, ?_⟩
    · simp [Run.redeliveries, h3]
    · simp only [Run.reconciles, List.map_cons, List.map_nil, List.flatten_cons,
        List.flatten_nil, List.append_nil, h1, hfc]
      rfl
    · simp [Run.notifications, h4]
  | succ n ih =>
    intro fuel i d msg h hfc ht hfuel
    obtain ⟨fuel, rfl⟩ : ∃ f, fuel = f + 1 := ⟨fuel - 1, by omega⟩
    have hr := (IntKind.inRange_iff T msg.FailCount).mp (decode_ok_inRange T d msg h)
    have hmin := IntKind.minVal_nonpos T
    have hwrap : T.wrap (msg.FailCount - 1) = (n : Int) + 1 := by
      rw [IntKind.wrap_pred T msg.FailCount (by omega) hr.2, hfc]
      push_cast
      omega
    have hgt : 0 < T.wrap (msg.FailCount - 1) := by rw [hwrap]; omega
    obtain ⟨h1, _, h3, h4⟩ :=
      trace_redeliver T cfg (chainWorld (fun j => some (errs j)) i) d msg (errs i) h rfl hgt
    obtain ⟨ih1, ih2, ih3, ih4⟩ :=
      ih fuel (i + 1) _ _ (decode_redelivery T msg ht) hwrap ht (by omega)
    rw [redeliveryChain_redeliver T cfg _ fuel i d msg (errs i) h rfl hgt]
    refine ⟨?_, ?_, ih3, ?_⟩
    · rw [Run.redeliveries_cons, Run.redeliveries_traces, List.map_append, ih1, h3,
        marshalDiscardingError_of_inRange
          { msg with FailCount := T.wrap (msg.FailCount - 1) } ht]
      simp [budgetOf, encode, JsonField.toOption, hwrap, List.range_succ]
    · rw [Run.reconciles_cons, Run.reconciles_traces, List.map_append, ih2, h1]
      simp [hfc, List.range_succ]
    · rw [Run.notifications_cons, Run.notifications_traces, h4, ih4]
      rfl

/-- Whatever its budget, an event that decodes is reconciled at least once:
a chain whose first reconcile succeeds consists of exactly one attempt. -/
theorem redeliveryChain_one_attempt_on_success (T : IntKind) (cfg : Config)
    (outcomes : Nat → Option String) (fuel i : Nat) (d : Delivery) (msg : Message)
    (h : decode T d = Except.ok msg) (ho : outcomes i = none) :
    (redeliveryChain T cfg outcomes (fuel + 1) i d).reconciles.length = 1
    ∧ (redeliveryChain T cfg outcomes (fuel + 1) i d).final = some Terminal.notified := by
  rw [redeliveryChain_success T cfg outcomes fuel i d msg h ho]
  simp [Run.reconciles, reconciles_of_decode_ok T cfg (chainWorld outcomes i) d msg h]

/-! ## The claims about chains -/

/-- With reconcile failing at every delivery, each redelivery consumed as the
next delivery and an event that `json.Marshal` encodes (the year of its
timestamp in `0..9999`): a payload without `fail_count` gives exactly 19
redeliveries, with budgets 19, 18, ..., 1 in that order, the reconcile calls
carrying budgets 20, ..., 1, then the drop after the attempt at budget 1, and
no success notification; a payload with `fail_count = k`, `k ≥ 1`, gives exactly
`k - 1` redeliveries, with budgets `k - 1, ..., 1`, and ends the same way. -/
theorem exhaustion_redelivers_budget_minus_one (T : IntKind) (cfg : Config)
    (errs : Nat → String) (hostname : JsonField String) (inventory : JsonField Fields)
    (timestamp : JsonField Int) (ts : Int) (hts : timeInRange (timestamp.getD ts) = true) :
    (∀ fuel, 20 ≤ fuel →
      (redeliveryChain T cfg (fun j => some (errs j)) fuel 0
          { Body := Payload.record
              { hostname := hostname, inventory := inventory, timestamp := timestamp,
                fail_count := JsonField.missing },
            Timestamp := ts }).redeliveries.map budgetOf
        = [some 19, some 18, some 17, some 16, some 15, some 14, some 13, some 12, some 11, some 10, some 9, some 8, some 7, some 6, some 5, some 4, some 3, some 2, some 1]
      ∧ (redeliveryChain T cfg (fun j => some (errs j)) fuel 0
          { Body := Payload.record
              { hostname := hostname, inventory := inventory, timestamp := timestamp,
                fail_count := JsonField.missing },
            Timestamp := ts }).reconciles.map Message.FailCount
        = [20, 19, 18, 17, 16, 15, 14, 13, 12, 11, 10, 9, 8, 7, 6, 5, 4, 3, 2, 1]
      ∧ (redeliveryChain T cfg (fun j => some (errs j)) fuel 0
          { Body := Payload.record
              { hostname := hostname, inventory := inventory, timestamp := timestamp,
                fail_count := JsonField.missing },
            Timestamp := ts }).final = some Terminal.dropped
      ∧ (redeliveryChain T cfg (fun j => some (errs j)) fuel 0
          { Body := Payload.record
              { hostname := hostname, inventory := inventory, timestamp := timestamp,
                fail_count := JsonField.missing },
            Timestamp := ts }).notifications = [])
    ∧ (∀ k : Nat, 1 ≤ k → (k : Int) ≤ T.maxVal → ∀ fuel, k ≤ fuel →
      (redeliveryChain T cfg (fun j => some (errs j)) fuel 0
          { Body := Payload.record
              { hostname := hostname, inventory := inventory, timestamp := timestamp,
                fail_count := JsonField.value (k : Int) },
            Timestamp := ts }).redeliveries.length = k - 1
      ∧ (redeliveryChain T cfg (fun j => some (errs j)) fuel 0
          { Body := Payload.record
              { hostname := hostname, inventory := inventory, timestamp := timestamp,
                fail_count := JsonField.value (k : Int) },
            Timestamp := ts }).redeliveries.map budgetOf
        = (List.range (k - 1)).reverse.map (fun (j : Nat) => some ((j : Int) + 1))
      ∧ (redeliveryChain T cfg (fun j => some (errs j)) fuel 0
          { Body := Payload.record
              { hostname := hostname, inventory := inventory, timestamp := timestamp,
                fail_count := JsonField.value (k : Int) },
            Timestamp := ts }).reconciles.map Message.FailCount
        = (List.range k).reverse.map (fun (j : Nat) => (j : Int) + 1)
      ∧ (redeliveryChain T cfg (fun j => some (errs j)) fuel 0
          { Body := Payload.record
              { hostname := hostname, inventory := inventory, timestamp := timestamp,
                fail_count := JsonField.value (k : Int) },
            Timestamp := ts }).final = some Terminal.dropped
      ∧ (redeliveryChain T cfg (fun j => some (errs j)) fuel 0
          { Body := Payload.record
              { hostname := hostname, inventory := inventory, timestamp := timestamp,
                fail_count := JsonField.value (k : Int) },
            Timestamp := ts }).notifications = []) := by
  have htime : ∀ t, timestamp = JsonField.value t → timeInRange t = true := by
    intro t ht
    rw [ht] at hts
    exact hts
  constructor
  · intro fuel hfuel
    have hd := decode_record T
      { hostname := hostname, inventory := inventory, timestamp := timestamp,
        fail_count := JsonField.missing } ts
      (by intro v hv; cases hv) htime
    obtain ⟨h1, h2, h3, h4⟩ :=
      redeliveryChain_all_fail T cfg errs 19 fuel 0 _ _ hd (by norm_num [JsonField.getD]) hts
        hfuel
    refine ⟨?_, ?_, h3, h4⟩
    · rw [h1]
      decide
    · rw [h2]
      decide
  · intro k hk hmax fuel hfuel
    obtain ⟨n, rfl⟩ : ∃ n, k = n + 1 := ⟨k - 1, by omega⟩
    have hin : T.inRange ((n + 1 : Nat) : Int) = true := by
      rw [IntKind.inRange_iff]
      have := IntKind.minVal_nonpos T
      omega
    have hd := decode_record T
      { hostname := hostname, inventory := inventory, timestamp := timestamp,
        fail_count := JsonField.value ((n + 1 : Nat) : Int) } ts
      (by intro v hv; injection hv with hv; rw [← hv]; exact hin) htime
    obtain ⟨h1, h2, h3, h4⟩ :=
      redeliveryChain_all_fail T cfg errs n fuel 0 _ _ hd (by push_cast; rfl) hts hfuel
    refine ⟨?_, h1, h2, h3, h4⟩
    have hlen := congrArg List.length h1
    rw [List.length_map, List.length_map, List.length_reverse, List.length_range] at hlen
    rw [hlen]
    rfl

/-- An event that `json.Marshal` does not encode, with budget left and reconcile
failing: the redelivery goes out with an empty body, its delivery does not
decode, and the chain ends there, after one reconcile call and one redelivery. -/
theorem redeliveryChain_unencodable (T : IntKind) (cfg : Config)
    (outcomes : Nat → Option String) (fuel i : Nat) (d : Delivery) (msg : Message) (e : String)
    (h : decode T d = Except.ok msg) (ho : outcomes i = some e)
    (hgt : 0 < T.wrap (msg.FailCount - 1)) (ht : timeInRange msg.Timestamp = false) :
    (redeliveryChain T cfg outcomes (fuel + 2) i d).redeliveries.map (fun p => p.2.2.Body)
        = [Payload.invalid ""]
    ∧ (redeliveryChain T cfg outcomes (fuel + 2) i d).reconciles = [msg]
    ∧ (redeliveryChain T cfg outcomes (fuel + 2) i d).final = some Terminal.malformed := by
  obtain ⟨h1, _, h3, _⟩ := trace_redeliver T cfg (chainWorld outcomes i) d msg e h ho hgt
  have hbody : marshalDiscardingError { msg with FailCount := T.wrap (msg.FailCount - 1) }
      = Payload.invalid "" :=
    marshalDiscardingError_of_not_inRange _ ht
  have hnext := redeliveryChain_malformed T cfg outcomes fuel (i + 1)
    { Body := Payload.invalid "", Timestamp := zeroTime } _
    (decode_invalid T "" zeroTime)
  obtain ⟨m1, _, m3, _⟩ := trace_malformed T cfg (chainWorld outcomes (i + 1))
    { Body := Payload.invalid "", Timestamp := zeroTime } _ (decode_invalid T "" zeroTime)
  rw [redeliveryChain_redeliver T cfg outcomes (fuel + 1) i d msg e h ho hgt, hbody, hnext]
  refine ⟨?_, ?_, rfl⟩
  · simp [Run.redeliveries, h3, m3, hbody]
  · simp [Run.reconciles, h1, m1]

/-- C8, at the input where the chain is cut short: a delivery whose timestamp is
the first second of year 10000, with payload `hostname = vm-d` and no
`fail_count`, reconcile failing at every delivery. `json.Marshal` fails on the
copy with budget 19, the handler discards the error and publishes the
redelivery with an empty body, whose delivery does not decode: one reconcile
call at budget 20 and one redelivery instead of 19, no drop at budget 1. -/
theorem exhaustion_cut_short_in_year_10000 :
    (redeliveryChain IntKind.int64
        { incomingQueue := "vm-in", inQName := "vm-in", outQName := "vm-out", RETRY_DELAY := 5 }
        (fun _ => some "timeout") 20 0
        { Body := Payload.record
            { hostname := JsonField.value "vm-d", inventory := JsonField.missing,
              timestamp := JsonField.missing, fail_count := JsonField.missing },
          Timestamp := 253402300800 }).redeliveries.map (fun p => p.2.2.Body) = [Payload.invalid ""]
    ∧ (redeliveryChain IntKind.int64
        { incomingQueue := "vm-in", inQName := "vm-in", outQName := "vm-out", RETRY_DELAY := 5 }
        (fun _ => some "timeout") 20 0
        { Body := Payload.record
            { hostname := JsonField.value "vm-d", inventory := JsonField.missing,
              timestamp := JsonField.missing, fail_count := JsonField.missing },
          Timestamp := 253402300800 }).redeliveries.map budgetOf = [none]
    ∧ (redeliveryChain IntKind.int64
        { incomingQueue := "vm-in", inQName := "vm-in", outQName := "vm-out", RETRY_DELAY := 5 }
        (fun _ => some "timeout") 20 0
        { Body := Payload.record
            { hostname := JsonField.value "vm-d", inventory := JsonField.missing,
              timestamp := JsonField.missing, fail_count := JsonField.missing },
          Timestamp := 253402300800 }).reconciles.map Message.FailCount = [20]
    ∧ (redeliveryChain IntKind.int64
        { incomingQueue := "vm-in", inQName := "vm-in", outQName := "vm-out", RETRY_DELAY := 5 }
        (fun _ => some "timeout") 20 0
        { Body := Payload.record
            { hostname := JsonField.value "vm-d", inventory := JsonField.missing,
              timestamp := JsonField.missing, fail_count := JsonField.missing },
          Timestamp := 253402300800 }).final = some Terminal.malformed
    ∧ ¬ ((redeliveryChain IntKind.int64
        { incomingQueue := "vm-in", inQName := "vm-in", outQName := "vm-out", RETRY_DELAY := 5 }
        (fun _ => some "timeout") 20 0
        { Body := Payload.record
            { hostname := JsonField.value "vm-d", inventory := JsonField.missing,
              timestamp := JsonField.missing, fail_count := JsonField.missing },
          Timestamp := 253402300800 }).redeliveries.length = 19) := by
  decide

end RhApi
